import Mathlib

/-!
Shallow embedding of the CPQ frontend (`src/cpq-frontend/src`) and of the
spec-described lookup resolver, with theorems checking the frozen claims.

Sources embedded:
* `validation.ts` — the zod `quoteSchema` and `toPayload` (namespace `V`);
* `src/unnamed/part_001` — the second copy of the schema and `toPayload`
  (namespace `P`);
* `api.ts` — `postQuote` response handling and its `console.log`;
* `App.tsx` — `onSubmit` result routing, and `FormPrimitives.tsx`
  (`StatusBar`, `ResultCard`);
* the lookup resolver (strict / fallback policies), which has no source under
  `src/` and is modelled from the spec.
-/

namespace CPQ

/-- A JavaScript number as the zod validators see it: `NaN` (also standing for
the other non-finite values, which fail `Number.isInteger` exactly as `NaN`
does) or a finite value, modelled as a rational. -/
inductive JsNum where
  | nan : JsNum
  | num (q : ℚ) : JsNum
deriving DecidableEq, Repr

/-- The raw form input handed to `quoteSchema.safeParse`: every field may be
absent (`none` models a missing key / `undefined`). Number fields come from
inputs registered with `valueAsNumber: true`, so they are numbers or `NaN`. -/
structure RawInput where
  fefco : Option String
  x_mm : Option JsNum
  y_mm : Option JsNum
  z_mm : Option JsNum
  material : Option String
  print : Option String
  qty : Option JsNum
  sla_type : Option String
  company : Option String
  contact_name : Option String
  city : Option String
  phone : Option String
  email : Option String
  tg_username : Option String
deriving DecidableEq, Repr

/-- `QuoteFormPayload` from `types.ts`: the parsed form data / request payload.
Enum fields are kept as strings (the schema enforces membership). -/
structure QuoteFormPayload where
  fefco : String
  x_mm : ℤ
  y_mm : ℤ
  z_mm : ℤ
  material : String
  print : Option String
  qty : ℤ
  sla_type : String
  company : Option String
  contact_name : Option String
  city : Option String
  phone : Option String
  email : Option String
  tg_username : Option String
deriving DecidableEq, Repr

/-- `fefcoOptions` from `validation.ts`. -/
def fefcoOptions : List String := ["0201", "0203", "0427", "0471", "0501"]

/-- `materialOptions` from `validation.ts`. -/
def materialOptions : List String :=
  ["Т23 Крафт", "Микрогофрокартон Крафт", "Микрогофрокартон Белый"]

/-- `printOptions` from `validation.ts`. -/
def printOptions : List String := ["без печати", "1+0", "2+0", "4+0", "4+4"]

/-- `slaOptions` from `validation.ts`. -/
def slaOptions : List String := ["стандарт", "срочно", "эконом"]

/-- `z.enum(opts)` on a required field: fails when the key is absent or the
value is not one of the options. -/
def parseReqEnum (opts : List String) : Option String → Option String
  | none => none
  | some s => if s ∈ opts then some s else none

/-- `z.number().int().min(lo).max(hi)` on a required field: fails when absent,
`NaN`, non-integer, or out of range; succeeds with the integer value. -/
def parseIntField (lo hi : ℤ) : Option JsNum → Option ℤ
  | none => none
  | some JsNum.nan => none
  | some (JsNum.num q) =>
    if q.den = 1 ∧ lo ≤ q.num ∧ q.num ≤ hi then some q.num else none

/-- JS `\s` (whitespace) membership, for the `[^\s@]` character class. -/
def jsWs (c : Char) : Bool :=
  c == ' ' || c == '\t' || c == '\n' || c == '\r' || c == '\x0b' || c == '\x0c'

/-- A character matching `[^\s@]`. -/
def emailChar (c : Char) : Bool := !jsWs c && c != '@'

/-- Does the list contain a `'.'` that is followed by at least one more
character (i.e. a dot that is not the final character)? -/
def dotWithSuccessor : List Char → Bool
  | [] => false
  | [_] => false
  | c :: rest => c == '.' || dotWithSuccessor rest

/-- Does the list contain a `'.'` that is neither its first nor its last
character? Over an `[^\s@]`-only list this is exactly matching
`[^\s@]+\.[^\s@]+` (a dot with nonempty segments on both sides; `'.'` itself
belongs to `[^\s@]`, so the segments may contain further dots). -/
def hasInnerDot : List Char → Bool
  | [] => false
  | _ :: rest => dotWithSuccessor rest

/-- Matcher for `@[^\s@]+\.[^\s@]+$`: an `'@'` followed by a domain part that
is `[^\s@]`-only and has an inner dot. -/
def emailAtTail : List Char → Bool
  | [] => false
  | c :: t => c == '@' && t.all emailChar && hasInnerDot t

/-- Matcher for the email regex `^[^\s@]+@[^\s@]+\.[^\s@]+$` of
`validation.ts`: consume one or more `[^\s@]` characters, then require the
`@...` tail. -/
def emailMatchList : List Char → Bool
  | [] => false
  | c :: rest => emailChar c && (emailAtTail rest || emailMatchList rest)

/-- The email regex of `validation.ts` on strings. -/
def emailMatch (s : String) : Bool := emailMatchList s.data

/-- A character matching `[a-zA-Z0-9_]`. -/
def tgChar (c : Char) : Bool := c.isAlpha || c.isDigit || c == '_'

/-- The Telegram-username regex `^@?[a-zA-Z0-9_]{5,}$` shared by both schema
copies: an optional leading `'@'`, then at least five word characters. -/
def tgMatch (s : String) : Bool :=
  match s.data with
  | '@' :: rest => if rest.length < 5 then false else rest.all tgChar
  | l => if l.length < 5 then false else l.all tgChar

/-- `z.enum(opts).optional().or(z.literal('').transform(() => undefined))`
(the `print` field of `validation.ts`): absent gives `undefined`; an option
value is kept; the empty string takes the second union branch and becomes
`undefined`; anything else fails. -/
def parsePrintV : Option String → Option (Option String)
  | none => some none
  | some s =>
    if s ∈ printOptions then some (some s)
    else if s = "" then some none
    else none

/-- `z.string().max(n).optional().or(z.literal('').transform(() => undefined))`
(`company`/`contact_name`/`city` in `validation.ts`). Note the empty string
already satisfies `max(n)`, so the first union branch accepts it and it is
kept as `""` — the `literal('')` branch is unreachable. -/
def parseMaxLenOrEmpty (n : ℕ) : Option String → Option (Option String)
  | none => some none
  | some s =>
    if s.length ≤ n then some (some s)
    else if s = "" then some none
    else none

/-- `z.string().optional().or(z.literal('').transform(() => undefined))`
(`phone` in `validation.ts`): every string passes the first branch. -/
def parseAnyStrOrEmpty : Option String → Option (Option String)
  | none => some none
  | some s => some (some s)

/-- `z.string().regex(rx).optional().or(z.literal('').transform(() =>
undefined))` (`email`/`tg_username` in `validation.ts`). -/
def parseRegexOrEmpty (rx : String → Bool) : Option String → Option (Option String)
  | none => some none
  | some s =>
    if rx s then some (some s)
    else if s = "" then some none
    else none

/-- `z.enum(opts).optional()` (the `print` field in `part_001`): no
empty-string branch. -/
def parseOptEnum (opts : List String) : Option String → Option (Option String)
  | none => some none
  | some s => if s ∈ opts then some (some s) else none

/-- `z.string().max(n).optional()` (`company`/`contact_name`/`city` in
`part_001`). -/
def parseMaxLen (n : ℕ) : Option String → Option (Option String)
  | none => some none
  | some s => if s.length ≤ n then some (some s) else none

/-- `z.string().optional()` (`phone` in `part_001`). -/
def parseAnyStr : Option String → Option (Option String)
  | none => some none
  | some s => some (some s)

/-- `z.string().regex(rx).optional()` / `z.string().email().optional()`
shape in `part_001`: the validator is a parameter. -/
def parseRegexOpt (rx : String → Bool) : Option String → Option (Option String)
  | none => some none
  | some s => if rx s then some (some s) else none

/-- `quoteSchema.safeParse` from `src/cpq-frontend/src/validation.ts`:
`none` models a failed parse, `some` a successful one with the parsed data.
`z.object` succeeds exactly when every field parser succeeds. -/
def quoteSchemaV (i : RawInput) : Option QuoteFormPayload := do
  let fefco ← parseReqEnum fefcoOptions i.fefco
  let x ← parseIntField 20 1200 i.x_mm
  let y ← parseIntField 20 1200 i.y_mm
  let z ← parseIntField 20 1200 i.z_mm
  let material ← parseReqEnum materialOptions i.material
  let pr ← parsePrintV i.print
  let qty ← parseIntField 1 100000 i.qty
  let sla ← parseReqEnum slaOptions i.sla_type
  let company ← parseMaxLenOrEmpty 120 i.company
  let contact ← parseMaxLenOrEmpty 80 i.contact_name
  let city ← parseMaxLenOrEmpty 80 i.city
  let phone ← parseAnyStrOrEmpty i.phone
  let email ← parseRegexOrEmpty emailMatch i.email
  let tg ← parseRegexOrEmpty tgMatch i.tg_username
  pure ⟨fefco, x, y, z, material, pr, qty, sla, company, contact, city, phone, email, tg⟩

/-- `toPayload` from `validation.ts`: `return data as QuoteFormPayload` —
the identity. -/
def toPayloadV (d : QuoteFormPayload) : QuoteFormPayload := d

/-- `quoteSchema.safeParse` from `src/unnamed/part_001`. The zod `.email()`
validator is a third-party library function whose exact regex is not in the
repository, so it is passed in as the parameter `zodEmail`; every other field
is embedded from the `part_001` source. -/
def quoteSchemaP (zodEmail : String → Bool) (i : RawInput) : Option QuoteFormPayload := do
  let fefco ← parseReqEnum fefcoOptions i.fefco
  let x ← parseIntField 20 1200 i.x_mm
  let y ← parseIntField 20 1200 i.y_mm
  let z ← parseIntField 20 1200 i.z_mm
  let material ← parseReqEnum materialOptions i.material
  let pr ← parseOptEnum printOptions i.print
  let qty ← parseIntField 1 100000 i.qty
  let sla ← parseReqEnum slaOptions i.sla_type
  let company ← parseMaxLen 120 i.company
  let contact ← parseMaxLen 80 i.contact_name
  let city ← parseMaxLen 80 i.city
  let phone ← parseAnyStr i.phone
  let email ← parseRegexOpt zodEmail i.email
  let tg ← parseRegexOpt tgMatch i.tg_username
  pure ⟨fefco, x, y, z, material, pr, qty, sla, company, contact, city, phone, email, tg⟩

/-- The `(data.f as any) === '' ? undefined : data.f` conversion used by
`toPayload` in `part_001`. -/
def emptyToNone : Option String → Option String
  | none => none
  | some s => if s = "" then none else some s

/-- `toPayload` from `src/unnamed/part_001`: spreads the data and maps
empty-string optional fields to `undefined`. -/
def toPayloadP (d : QuoteFormPayload) : QuoteFormPayload :=
  { d with
    print := emptyToNone d.print
    company := emptyToNone d.company
    contact_name := emptyToNone d.contact_name
    city := emptyToNone d.city
    phone := emptyToNone d.phone
    email := emptyToNone d.email
    tg_username := emptyToNone d.tg_username }

/-- `ApiResponse` from `api.ts`: the discriminated union
`ApiSuccess | ApiError`. -/
inductive ApiResp where
  | ok (pdf_url lead_id : String) : ApiResp
  | err (error : String) : ApiResp
deriving DecidableEq, Repr

/-- Substring test on character lists (JS `String.prototype.includes`). -/
def containsSub (l pat : List Char) : Bool :=
  pat.isPrefixOf l ||
    match l with
    | [] => false
    | _ :: rest => containsSub rest pat

/-- JS `includes` on strings. -/
def strIncludes (s pat : String) : Bool := containsSub s.data pat.data

/-- The observable parts of the `fetch` response consumed by `postQuote`:
the `content-type` header (`none` when the header is missing), the result of
`res.text()` (`none` when it rejects — the code catches that to `''`), the
status text, and the result of `(await res.json()) as ApiResponse` (`none`
when `res.json()` rejects). -/
structure HttpResp where
  contentTypeHeader : Option String
  bodyText : Option String
  statusText : String
  jsonBody : Option ApiResp
deriving DecidableEq, Repr

/-- Response handling of `postQuote` (`api.ts` lines 37–44): `none` models an
exception escaping `postQuote` (only possible from `res.json()`); `some`
models the returned `ApiResponse`. -/
def postQuoteHandle (r : HttpResp) : Option ApiResp :=
  let contentType := r.contentTypeHeader.getD ""
  if !(strIncludes contentType "application/json") then
    let text := r.bodyText.getD ""
    some (ApiResp.err ("Unexpected response: " ++ (if text = "" then r.statusText else text)))
  else
    r.jsonBody

/-- The `onSubmit` handler's view of the request (`App.tsx` line 56):
`postQuote(...).catch((err) => ({ ok: false, error: String(err) }))`.
`errText` is `String(err)` for whatever exception escaped `postQuote`
(or the network failure of `fetch` itself, modelled by
`contentTypeHeader`-independent rejection: the caller passes the thrown
error's text directly). -/
def onSubmitResult (r : HttpResp) (errText : String) : ApiResp :=
  match postQuoteHandle r with
  | some res => res
  | none => ApiResp.err errText

/-- The form status values of `App.tsx`. -/
inductive Status where
  | idle : Status
  | loading : Status
  | success : Status
  | error : Status
deriving DecidableEq, Repr

/-- The component state after `onSubmit` finishes (`App.tsx` lines 57–65):
`status` and `result` as set by the success / error branches. -/
structure FormState where
  status : Status
  result : Option ApiResp
deriving DecidableEq, Repr

/-- The terminal state of one submission given the `ApiResponse` it received:
`res.ok` selects the success branch (`setStatus('success')`), otherwise the
error branch (`setStatus('error')`); both store the response in `result`. -/
def submitFinal (res : ApiResp) : FormState :=
  match res with
  | ApiResp.ok _ _ => ⟨Status.success, some res⟩
  | ApiResp.err _ => ⟨Status.error, some res⟩

/-- The `message` prop passed to `StatusBar` (`App.tsx` line 229):
`result && !result.ok ? result.error : undefined`. -/
def statusBarMessage (st : FormState) : Option String :=
  match st.result with
  | some (ApiResp.err e) => some e
  | _ => none

/-- The text rendered by `StatusBar` (`FormPrimitives.tsx` lines 63–64):
fixed strings for `loading` and `success`, `message || ''` otherwise. -/
def statusBarText (status : Status) (message : Option String) : String :=
  if status = Status.loading then "Отправляем запрос…"
  else if status = Status.success then "Готово. PDF отправлен в Telegram."
  else match message with
    | some m => m
    | none => ""

/-- Whether — and with which `(pdfUrl, leadId)` — `App.tsx` renders the
`ResultCard` download link (`App.tsx` lines 231–237:
`result && result.ok && <ResultCard pdfUrl={result.pdf_url}
leadId={result.lead_id} ... />`; the `href` of the rendered link is `pdfUrl`,
per `FormPrimitives.tsx` line 76). -/
def renderedLink (st : FormState) : Option (String × String) :=
  match st.result with
  | some (ApiResp.ok u l) => some (u, l)
  | _ => none

/-- A `console.log` record: the literal tag plus the payload object that is
logged verbatim next to it. -/
structure LogRecord where
  tag : String
  payload : QuoteFormPayload
deriving DecidableEq, Repr

/-- The log records emitted by `postQuote`
(`api.ts` line 26: `console.log('postQuote called', payload)`). -/
def postQuoteLogs (p : QuoteFormPayload) : List LogRecord :=
  [⟨"postQuote called", p⟩]

/-- The log records emitted by the form submit handler
(`App.tsx` line 49: `console.log('onSubmit values', values)`). -/
def onSubmitLogs (v : QuoteFormPayload) : List LogRecord :=
  [⟨"onSubmit values", v⟩]

/-- `undefined`-aware rendering of an optional string field, as the console
shows it. -/
def optText : Option String → String
  | none => "undefined"
  | some s => s

/-- The console's rendering of a logged payload object: every field value
appears verbatim (no masking anywhere in the frontend). Braces are omitted;
only the verbatim presence of the field values matters. -/
def payloadText (p : QuoteFormPayload) : String :=
  "fefco: " ++ p.fefco ++ ", x_mm: " ++ toString p.x_mm ++ ", y_mm: " ++
    toString p.y_mm ++ ", z_mm: " ++ toString p.z_mm ++ ", material: " ++
    p.material ++ ", print: " ++ optText p.print ++ ", qty: " ++
    toString p.qty ++ ", sla_type: " ++ p.sla_type ++ ", company: " ++
    optText p.company ++ ", contact_name: " ++ optText p.contact_name ++
    ", city: " ++ optText p.city ++ ", phone: " ++ optText p.phone ++
    ", email: " ++ optText p.email ++ ", tg_username: " ++ optText p.tg_username

/-- The full console line produced by one log record. -/
def logLine (r : LogRecord) : String := r.tag ++ " " ++ payloadText r.payload

/-!
Lookup resolver, modelled from the spec (its implementation is not under
`src/`; only the frontend is). `none` models the `NotFound` failure.
-/

/-- Modelled from the spec: `QuoteRequest`, the key fields plus the requested
quantity ("dimensions (x/y/z, mm, integers 20–1200), fefco code, material,
optional print spec, quantity (1–100000), SLA tier"). Contact fields are
irrelevant to resolution and omitted. -/
structure QuoteRequest where
  fefco : String
  x : ℤ
  y : ℤ
  z : ℤ
  material : String
  print : Option String
  qty : ℤ
  sla_type : String
deriving DecidableEq, Repr

/-- Modelled from the spec: `PriceRecord`, a "catalog entry keyed by
(fefco, x, y, z, material, print, sla_type) plus a quantity band
[qty_min, qty_max]". The price/lead-time/SKU columns play no role in
resolution and are omitted. -/
structure PriceRecord where
  fefco : String
  x : ℤ
  y : ℤ
  z : ℤ
  material : String
  print : Option String
  sla_type : String
  qty_min : ℤ
  qty_max : ℤ
deriving DecidableEq, Repr

/-- Modelled from the spec: "a candidate is eligible only if all of fefco, x,
y, z, material, print, sla_type match the request exactly". -/
def eligible (req : QuoteRequest) (r : PriceRecord) : Bool :=
  r.fefco == req.fefco && r.x == req.x && r.y == req.y && r.z == req.z &&
    r.material == req.material && r.print == req.print &&
    r.sla_type == req.sla_type

/-- Band containment: `qty_min ≤ qty ≤ qty_max`. -/
def bandContains (r : PriceRecord) (qty : ℤ) : Bool :=
  r.qty_min ≤ qty && qty ≤ r.qty_max

/-- Modelled from the spec: strict policy — "among eligible candidates,
return the one whose [qty_min, qty_max] contains the requested quantity; if
none, fail NotFound" (`none`). -/
def resolveStrict (req : QuoteRequest) (cands : List PriceRecord) : Option PriceRecord :=
  (cands.filter (eligible req)).find? (fun r => bandContains r req.qty)

/-- Modelled from the spec: the absolute distance between the requested
quantity and the band midpoint `(qty_min + qty_max)/2`, in exact rational
arithmetic. -/
def midDist (qty : ℤ) (r : PriceRecord) : ℚ :=
  |(qty : ℚ) - ((r.qty_min : ℚ) + (r.qty_max : ℚ)) / 2|

/-- Twice the midpoint distance, as a natural number:
`|2·qty − (qty_min + qty_max)|`. Comparing these values is exactly comparing
the rational midpoint distances (`midDist_lt_iff`, `midDist_eq_iff`), and
keeps the resolver kernel-executable. -/
def dist2 (qty : ℤ) (r : PriceRecord) : ℕ :=
  (2 * qty - (r.qty_min + r.qty_max)).natAbs

/-- Modelled from the spec: the better of two candidates under the fallback
policy — smaller midpoint distance wins, "ties broken by the smallest
qty_min". -/
def betterBand (qty : ℤ) (a b : PriceRecord) : PriceRecord :=
  if dist2 qty b < dist2 qty a then b
  else if dist2 qty a < dist2 qty b then a
  else if b.qty_min < a.qty_min then b
  else a

/-- Modelled from the spec: fallback policy — "among eligible candidates
(regardless of band containment), select the one minimizing the absolute
distance between the requested quantity and the band midpoint
(qty_min+qty_max)/2; ties broken by the smallest qty_min. If no eligible
candidate exists at all, fail NotFound" (`none`). -/
def resolveFallback (req : QuoteRequest) (cands : List PriceRecord) : Option PriceRecord :=
  match cands.filter (eligible req) with
  | [] => none
  | c :: cs => some (cs.foldl (betterBand req.qty) c)

/-- The request of the spec's fallback example (Scenario A key fields,
requested quantity 1000). -/
def exReq : QuoteRequest :=
  ⟨"0201", 300, 200, 150, "Микрогофрокартон Крафт", none, 1000, "стандарт"⟩

/-- Eligible catalog record with band [100, 500]. -/
def exBandLow : PriceRecord :=
  ⟨"0201", 300, 200, 150, "Микрогофрокартон Крафт", none, "стандарт", 100, 500⟩

/-- Eligible catalog record with band [501, 2000]. -/
def exBandHigh : PriceRecord :=
  ⟨"0201", 300, 200, 150, "Микрогофрокартон Крафт", none, "стандарт", 501, 2000⟩

theorem midDist_eq_dist2 (q : ℤ) (r : PriceRecord) :
    midDist q r = (dist2 q r : ℚ) / 2 := by
  unfold midDist dist2
  rw [Int.cast_natAbs]
  push_cast
  have h : (q : ℚ) - ((r.qty_min : ℚ) + (r.qty_max : ℚ)) / 2
      = (2 * (q : ℚ) - ((r.qty_min : ℚ) + (r.qty_max : ℚ))) / 2 := by ring
  rw [h, abs_div]
  norm_num

theorem midDist_lt_iff (q : ℤ) (a b : PriceRecord) :
    midDist q a < midDist q b ↔ dist2 q a < dist2 q b := by
  rw [midDist_eq_dist2, midDist_eq_dist2]
  rw [div_lt_div_iff_of_pos_right (by norm_num : (0:ℚ) < 2)]
  exact_mod_cast Iff.rfl

theorem midDist_le_iff (q : ℤ) (a b : PriceRecord) :
    midDist q a ≤ midDist q b ↔ dist2 q a ≤ dist2 q b := by
  rw [midDist_eq_dist2, midDist_eq_dist2]
  rw [div_le_div_iff_of_pos_right (by norm_num : (0:ℚ) < 2)]
  exact_mod_cast Iff.rfl

theorem midDist_eq_iff (q : ℤ) (a b : PriceRecord) :
    midDist q a = midDist q b ↔ dist2 q a = dist2 q b := by
  constructor
  · intro h
    exact Nat.le_antisymm ((midDist_le_iff q a b).1 h.le) ((midDist_le_iff q b a).1 h.ge)
  · intro h
    rw [midDist_eq_dist2, midDist_eq_dist2, h]

theorem betterBand_cases (q : ℤ) (a b : PriceRecord) :
    betterBand q a b = a ∨ betterBand q a b = b := by
  unfold betterBand
  split_ifs <;> simp

theorem betterBand_le_left (q : ℤ) (a b : PriceRecord) :
    dist2 q (betterBand q a b) ≤ dist2 q a := by
  unfold betterBand
  split_ifs <;> omega

theorem betterBand_le_right (q : ℤ) (a b : PriceRecord) :
    dist2 q (betterBand q a b) ≤ dist2 q b := by
  unfold betterBand
  split_ifs <;> omega

theorem betterBand_tie_left (q : ℤ) (a b : PriceRecord)
    (h : dist2 q (betterBand q a b) = dist2 q a) :
    (betterBand q a b).qty_min ≤ a.qty_min := by
  unfold betterBand at h ⊢
  split_ifs at h ⊢ <;> omega

theorem betterBand_tie_right (q : ℤ) (a b : PriceRecord)
    (h : dist2 q (betterBand q a b) = dist2 q b) :
    (betterBand q a b).qty_min ≤ b.qty_min := by
  unfold betterBand at h ⊢
  split_ifs at h ⊢ <;> omega

/-- Invariant of the fold selecting the fallback candidate: the result is the
accumulator or a list element, its distance is minimal among both, and on
equal distance its `qty_min` is minimal. -/
theorem foldl_betterBand_spec (q : ℤ) :
    ∀ (l : List PriceRecord) (acc : PriceRecord),
      (l.foldl (betterBand q) acc = acc ∨ l.foldl (betterBand q) acc ∈ l)
      ∧ dist2 q (l.foldl (betterBand q) acc) ≤ dist2 q acc
      ∧ (dist2 q (l.foldl (betterBand q) acc) = dist2 q acc →
          (l.foldl (betterBand q) acc).qty_min ≤ acc.qty_min)
      ∧ ∀ s ∈ l, dist2 q (l.foldl (betterBand q) acc) ≤ dist2 q s ∧
          (dist2 q (l.foldl (betterBand q) acc) = dist2 q s →
            (l.foldl (betterBand q) acc).qty_min ≤ s.qty_min)
  | [], acc => by simp
  | b :: t, acc => by
    have ih := foldl_betterBand_spec q t (betterBand q acc b)
    obtain ⟨ihMem, ihLe, ihTie, ihAll⟩ := ih
    simp only [List.foldl_cons]
    set r := t.foldl (betterBand q) (betterBand q acc b) with hr
    have hLeL : dist2 q r ≤ dist2 q acc :=
      le_trans ihLe (betterBand_le_left q acc b)
    have hLeR : dist2 q r ≤ dist2 q b :=
      le_trans ihLe (betterBand_le_right q acc b)
    refine ⟨?_, hLeL, ?_, ?_⟩
    · rcases ihMem with h | h
      · rcases betterBand_cases q acc b with hc | hc
        · exact Or.inl (h.trans hc)
        · exact Or.inr (by simp [h, hc])
      · exact Or.inr (List.mem_cons_of_mem _ h)
    · intro hEq
      have h1 : dist2 q r = dist2 q (betterBand q acc b) :=
        le_antisymm ihLe (by
          have := betterBand_le_left q acc b
          omega)
      have h2 : dist2 q (betterBand q acc b) = dist2 q acc := by omega
      exact le_trans (ihTie h1) (betterBand_tie_left q acc b h2)
    · intro s hs
      rcases List.mem_cons.mp hs with hsb | hs
      · rw [hsb]
        refine ⟨hLeR, ?_⟩
        intro hEq
        have h1 : dist2 q r = dist2 q (betterBand q acc b) :=
          le_antisymm ihLe (by
            have := betterBand_le_right q acc b
            omega)
        have h2 : dist2 q (betterBand q acc b) = dist2 q b := by omega
        exact le_trans (ihTie h1) (betterBand_tie_right q acc b h2)
      · exact ihAll s hs

/-- The valid base input of `__tests__/validation.test.ts`. -/
def baseInput : RawInput :=
  ⟨some "0201", some (JsNum.num 300), some (JsNum.num 200), some (JsNum.num 150),
    some "Микрогофрокартон Крафт", none, some (JsNum.num 1000), some "стандарт",
    none, none, none, none, none, none⟩

theorem bindSome {α β : Type} {x : Option α} {f : α → Option β} {b : β}
    (h : x >>= f = some b) : ∃ a, x = some a ∧ f a = some b := by
  cases x with
  | none => simp at h
  | some a => exact ⟨a, rfl, by simpa using h⟩

/-- Inversion for the integer field parser: it succeeds with `n` exactly when
the raw field holds the (finite, integral) number `n` and `n` is in range. -/
theorem parseIntField_eq_some (lo hi : ℤ) (o : Option JsNum) (n : ℤ) :
    parseIntField lo hi o = some n ↔
      o = some (JsNum.num (n : ℚ)) ∧ lo ≤ n ∧ n ≤ hi := by
  cases o with
  | none => simp [parseIntField]
  | some j =>
    cases j with
    | nan => simp [parseIntField]
    | num q =>
      simp only [parseIntField, Option.some.injEq, JsNum.num.injEq]
      split_ifs with hc
      · constructor
        · rintro h
          injection h with h
          subst h
          refine ⟨?_, hc.2.1, hc.2.2⟩
          rw [(Rat.den_eq_one_iff q).mp hc.1]
        · rintro ⟨hq, h1, h2⟩
          rw [hq]
          simp
      · constructor
        · intro h
          exact absurd h (by simp)
        · rintro ⟨hq, h1, h2⟩
          exfalso
          apply hc
          rw [hq]
          simp [h1, h2]

/-- The payload that `quoteSchemaV` produces on `baseInput`. -/
def basePayload : QuoteFormPayload :=
  ⟨"0201", 300, 200, 150, "Микрогофрокартон Крафт", none, 1000, "стандарт",
    none, none, none, none, none, none⟩

/-- C3: `quoteSchema` accepts an input only if x_mm, y_mm and z_mm are
integers between 20 and 1200 and qty is an integer between 1 and 100000 (so
every input with a non-integer or out-of-range dimension or quantity is
rejected), and the boundary values 20, 1200, 1 and 100000 are accepted. -/
theorem quoteSchema_int_range_bounds :
    (∀ (i : RawInput) (d : QuoteFormPayload), quoteSchemaV i = some d →
      i.x_mm = some (JsNum.num (d.x_mm : ℚ)) ∧ 20 ≤ d.x_mm ∧ d.x_mm ≤ 1200 ∧
      i.y_mm = some (JsNum.num (d.y_mm : ℚ)) ∧ 20 ≤ d.y_mm ∧ d.y_mm ≤ 1200 ∧
      i.z_mm = some (JsNum.num (d.z_mm : ℚ)) ∧ 20 ≤ d.z_mm ∧ d.z_mm ≤ 1200 ∧
      i.qty = some (JsNum.num (d.qty : ℚ)) ∧ 1 ≤ d.qty ∧ d.qty ≤ 100000)
    ∧ (quoteSchemaV { baseInput with
        x_mm := some (JsNum.num 20), y_mm := some (JsNum.num 20),
        z_mm := some (JsNum.num 20), qty := some (JsNum.num 1) }).isSome = true
    ∧ (quoteSchemaV { baseInput with
        x_mm := some (JsNum.num 1200), y_mm := some (JsNum.num 1200),
        z_mm := some (JsNum.num 1200),
        qty := some (JsNum.num 100000) }).isSome = true := by
  refine ⟨?_, by decide, by decide⟩
  intro i d h
  unfold quoteSchemaV at h
  obtain ⟨f, hf, h⟩ := bindSome h
  obtain ⟨x, hx, h⟩ := bindSome h
  obtain ⟨y, hy, h⟩ := bindSome h
  obtain ⟨z, hz, h⟩ := bindSome h
  obtain ⟨m, hm, h⟩ := bindSome h
  obtain ⟨pr, hp, h⟩ := bindSome h
  obtain ⟨q, hq, h⟩ := bindSome h
  obtain ⟨sla, hs, h⟩ := bindSome h
  obtain ⟨co, hco, h⟩ := bindSome h
  obtain ⟨ct, hct, h⟩ := bindSome h
  obtain ⟨ci, hci, h⟩ := bindSome h
  obtain ⟨ph, hph, h⟩ := bindSome h
  obtain ⟨em, hem, h⟩ := bindSome h
  obtain ⟨tg, htg, h⟩ := bindSome h
  have hd : (⟨f, x, y, z, m, pr, q, sla, co, ct, ci, ph, em, tg⟩ : QuoteFormPayload) = d := by
    simpa using h
  subst hd
  obtain ⟨hx1, hx2, hx3⟩ := (parseIntField_eq_some _ _ _ _).mp hx
  obtain ⟨hy1, hy2, hy3⟩ := (parseIntField_eq_some _ _ _ _).mp hy
  obtain ⟨hz1, hz2, hz3⟩ := (parseIntField_eq_some _ _ _ _).mp hz
  obtain ⟨hq1, hq2, hq3⟩ := (parseIntField_eq_some _ _ _ _).mp hq
  exact ⟨hx1, hx2, hx3, hy1, hy2, hy3, hz1, hz2, hz3, hq1, hq2, hq3⟩

/-- Witness for `quoteSchema_int_range_bounds`: the accepted base input of the
test suite. -/
theorem quoteSchema_int_range_bounds_witness :
    quoteSchemaV baseInput = some basePayload ∧
    (baseInput.x_mm = some (JsNum.num (basePayload.x_mm : ℚ)) ∧
      20 ≤ basePayload.x_mm ∧ basePayload.x_mm ≤ 1200 ∧
      baseInput.y_mm = some (JsNum.num (basePayload.y_mm : ℚ)) ∧
      20 ≤ basePayload.y_mm ∧ basePayload.y_mm ≤ 1200 ∧
      baseInput.z_mm = some (JsNum.num (basePayload.z_mm : ℚ)) ∧
      20 ≤ basePayload.z_mm ∧ basePayload.z_mm ≤ 1200 ∧
      baseInput.qty = some (JsNum.num (basePayload.qty : ℚ)) ∧
      1 ≤ basePayload.qty ∧ basePayload.qty ≤ 100000) :=
  ⟨by decide, quoteSchema_int_range_bounds.1 baseInput basePayload (by decide)⟩

/-- `z.object` semantics: the parse succeeds exactly when every field parser
succeeds. -/
theorem quoteSchemaV_isSome_iff (i : RawInput) :
    (quoteSchemaV i).isSome = true ↔
      (parseReqEnum fefcoOptions i.fefco).isSome = true ∧
      (parseIntField 20 1200 i.x_mm).isSome = true ∧
      (parseIntField 20 1200 i.y_mm).isSome = true ∧
      (parseIntField 20 1200 i.z_mm).isSome = true ∧
      (parseReqEnum materialOptions i.material).isSome = true ∧
      (parsePrintV i.print).isSome = true ∧
      (parseIntField 1 100000 i.qty).isSome = true ∧
      (parseReqEnum slaOptions i.sla_type).isSome = true ∧
      (parseMaxLenOrEmpty 120 i.company).isSome = true ∧
      (parseMaxLenOrEmpty 80 i.contact_name).isSome = true ∧
      (parseMaxLenOrEmpty 80 i.city).isSome = true ∧
      (parseAnyStrOrEmpty i.phone).isSome = true ∧
      (parseRegexOrEmpty emailMatch i.email).isSome = true ∧
      (parseRegexOrEmpty tgMatch i.tg_username).isSome = true := by
  constructor
  · intro h
    rw [Option.isSome_iff_exists] at h
    obtain ⟨d, h⟩ := h
    unfold quoteSchemaV at h
    obtain ⟨f, hf, h⟩ := bindSome h
    obtain ⟨x, hx, h⟩ := bindSome h
    obtain ⟨y, hy, h⟩ := bindSome h
    obtain ⟨z, hz, h⟩ := bindSome h
    obtain ⟨m, hm, h⟩ := bindSome h
    obtain ⟨pr, hp, h⟩ := bindSome h
    obtain ⟨q, hq, h⟩ := bindSome h
    obtain ⟨sla, hsl, h⟩ := bindSome h
    obtain ⟨co, hco, h⟩ := bindSome h
    obtain ⟨ct, hct, h⟩ := bindSome h
    obtain ⟨ci, hci, h⟩ := bindSome h
    obtain ⟨ph, hph, h⟩ := bindSome h
    obtain ⟨em, hem, h⟩ := bindSome h
    obtain ⟨tg, htg, _⟩ := bindSome h
    exact ⟨by simp [hf], by simp [hx], by simp [hy], by simp [hz], by simp [hm],
      by simp [hp], by simp [hq], by simp [hsl], by simp [hco], by simp [hct],
      by simp [hci], by simp [hph], by simp [hem], by simp [htg]⟩
  · rintro ⟨h1, h2, h3, h4, h5, h6, h7, h8, h9, h10, h11, h12, h13, h14⟩
    rw [Option.isSome_iff_exists] at h1 h2 h3 h4 h5 h6 h7 h8 h9 h10 h11 h12 h13 h14
    obtain ⟨f, hf⟩ := h1
    obtain ⟨x, hx⟩ := h2
    obtain ⟨y, hy⟩ := h3
    obtain ⟨z, hz⟩ := h4
    obtain ⟨m, hm⟩ := h5
    obtain ⟨pr, hp⟩ := h6
    obtain ⟨q, hq⟩ := h7
    obtain ⟨sla, hsl⟩ := h8
    obtain ⟨co, hco⟩ := h9
    obtain ⟨ct, hct⟩ := h10
    obtain ⟨ci, hci⟩ := h11
    obtain ⟨ph, hph⟩ := h12
    obtain ⟨em, hem⟩ := h13
    obtain ⟨tg, htg⟩ := h14
    simp [quoteSchemaV, hf, hx, hy, hz, hm, hp, hq, hsl, hco, hct, hci,
      hph, hem, htg]

/-- C7: with the rest of the input accepted, an absent print or any of the
five enum options is accepted; any other non-empty print value makes
`quoteSchema` reject the input. -/
theorem quoteSchema_print_optional_enum (i : RawInput) (s : String) :
    ((quoteSchemaV { i with print := none }).isSome = true →
      ∀ t ∈ printOptions, (quoteSchemaV { i with print := some t }).isSome = true)
    ∧ (s ∉ printOptions → s ≠ "" →
      quoteSchemaV { i with print := some s } = none) := by
  constructor
  · intro hacc t ht
    rw [quoteSchemaV_isSome_iff] at hacc ⊢
    obtain ⟨h1, h2, h3, h4, h5, _, h7, h8, h9, h10, h11, h12, h13, h14⟩ := hacc
    exact ⟨h1, h2, h3, h4, h5, by simp [parsePrintV, ht], h7, h8, h9, h10,
      h11, h12, h13, h14⟩
  · intro hs hne
    cases hqq : quoteSchemaV { i with print := some s } with
    | none => rfl
    | some d =>
      exfalso
      have hacc : (quoteSchemaV { i with print := some s }).isSome = true := by
        rw [hqq]
        rfl
      rw [quoteSchemaV_isSome_iff] at hacc
      have hp := hacc.2.2.2.2.2.1
      simp [parsePrintV, hs, hne] at hp

/-- Witness for `quoteSchema_print_optional_enum`: the base input accepts an
absent print and the option "1+0", and rejects the non-empty value "5+5". -/
theorem quoteSchema_print_optional_enum_witness :
    ((quoteSchemaV { baseInput with print := none }).isSome = true ∧
      "1+0" ∈ printOptions ∧
      (quoteSchemaV { baseInput with print := some "1+0" }).isSome = true) ∧
    ("5+5" ∉ printOptions ∧ "5+5" ≠ "" ∧
      quoteSchemaV { baseInput with print := some "5+5" } = none) :=
  ⟨⟨by decide, by decide,
    (quoteSchema_print_optional_enum baseInput "5+5").1 (by decide) "1+0" (by decide)⟩,
   by decide, by decide,
   (quoteSchema_print_optional_enum baseInput "5+5").2 (by decide) (by decide)⟩

/-- C9 counterexample: on the base input with `company` set to the empty
string, parsing succeeds and the payload produced via `toPayload` (the
identity cast) has `company = some ""` — the empty string IS included in the
payload, contradicting the claim that every empty optional field becomes
`undefined`. -/
theorem empty_company_kept_in_payload :
    (quoteSchemaV { baseInput with company := some "" }).map toPayloadV
      = some { basePayload with company := some "" } ∧
    ({ basePayload with company := some "" } : QuoteFormPayload).company
      = some "" := by
  constructor
  · decide
  · rfl

/-- C9 amended: for every accepted input, an empty-string `print`, `email` or
`tg_username` parses to `undefined` (their validators reject `""`, so the
`literal('')` union branch fires), while an empty-string `company`,
`contact_name`, `city` or `phone` already passes its first union branch and
stays the empty string; `toPayload` is the identity, so exactly the latter
four reach the payload as empty strings. -/
theorem empty_optional_fields_payload (i : RawInput) (d : QuoteFormPayload)
    (h : quoteSchemaV i = some d) :
    toPayloadV d = d ∧
    (i.print = some "" → d.print = none) ∧
    (i.email = some "" → d.email = none) ∧
    (i.tg_username = some "" → d.tg_username = none) ∧
    (i.company = some "" → d.company = some "") ∧
    (i.contact_name = some "" → d.contact_name = some "") ∧
    (i.city = some "" → d.city = some "") ∧
    (i.phone = some "" → d.phone = some "") := by
  unfold quoteSchemaV at h
  obtain ⟨f, hf, h⟩ := bindSome h
  obtain ⟨x, hx, h⟩ := bindSome h
  obtain ⟨y, hy, h⟩ := bindSome h
  obtain ⟨z, hz, h⟩ := bindSome h
  obtain ⟨m, hm, h⟩ := bindSome h
  obtain ⟨pr, hp, h⟩ := bindSome h
  obtain ⟨q, hq, h⟩ := bindSome h
  obtain ⟨sla, hsl, h⟩ := bindSome h
  obtain ⟨co, hco, h⟩ := bindSome h
  obtain ⟨ct, hct, h⟩ := bindSome h
  obtain ⟨ci, hci, h⟩ := bindSome h
  obtain ⟨ph, hph, h⟩ := bindSome h
  obtain ⟨em, hem, h⟩ := bindSome h
  obtain ⟨tg, htg, h⟩ := bindSome h
  have hd : (⟨f, x, y, z, m, pr, q, sla, co, ct, ci, ph, em, tg⟩ : QuoteFormPayload) = d := by
    simpa using h
  subst hd
  refine ⟨rfl, ?_, ?_, ?_, ?_, ?_, ?_, ?_⟩
  · intro he
    rw [he, show parsePrintV (some "") = some none from by decide] at hp
    injection hp with hp
    exact hp.symm
  · intro he
    rw [he, show parseRegexOrEmpty emailMatch (some "") = some none from by decide] at hem
    injection hem with hem
    exact hem.symm
  · intro he
    rw [he, show parseRegexOrEmpty tgMatch (some "") = some none from by decide] at htg
    injection htg with htg
    exact htg.symm
  · intro he
    rw [he, show parseMaxLenOrEmpty 120 (some "") = some (some "") from by decide] at hco
    injection hco with hco
    exact hco.symm
  · intro he
    rw [he, show parseMaxLenOrEmpty 80 (some "") = some (some "") from by decide] at hct
    injection hct with hct
    exact hct.symm
  · intro he
    rw [he, show parseMaxLenOrEmpty 80 (some "") = some (some "") from by decide] at hci
    injection hci with hci
    exact hci.symm
  · intro he
    rw [he, show parseAnyStrOrEmpty (some "") = some (some "") from by decide] at hph
    injection hph with hph
    exact hph.symm

/-- The base input with every optional field set to the empty string. -/
def allEmptyOptInput : RawInput := { baseInput with
  print := some ""
  email := some ""
  tg_username := some ""
  company := some ""
  contact_name := some ""
  city := some ""
  phone := some "" }

/-- The payload `quoteSchemaV` produces on `allEmptyOptInput`: the
empty-string `company`/`contact_name`/`city`/`phone` survive. -/
def allEmptyOptPayload : QuoteFormPayload := { basePayload with
  company := some ""
  contact_name := some ""
  city := some ""
  phone := some "" }

/-- Witness for `empty_optional_fields_payload`: the base input with every
optional field set to the empty string. -/
theorem empty_optional_fields_payload_witness :
    quoteSchemaV allEmptyOptInput = some allEmptyOptPayload ∧
    (toPayloadV allEmptyOptPayload = allEmptyOptPayload ∧
      allEmptyOptPayload.print = none ∧
      allEmptyOptPayload.company = some "") := by
  have hparse : quoteSchemaV allEmptyOptInput = some allEmptyOptPayload := by decide
  have hmain := empty_optional_fields_payload _ _ hparse
  exact ⟨hparse, hmain.1, hmain.2.1 rfl, hmain.2.2.2.2.1 rfl⟩

/-- When the raw input's `email` is absent, the `part_001` schema does not
consult the email validator at all, so the unknown zod `.email()` regex is
irrelevant to such inputs. -/
theorem quoteSchemaP_email_irrelevant (ze1 ze2 : String → Bool) (i : RawInput)
    (h : i.email = none) : quoteSchemaP ze1 i = quoteSchemaP ze2 i := by
  unfold quoteSchemaP
  rw [h]
  simp only [parseRegexOpt]

/-- C8 counterexample: on the base input with `print` set to the empty string
the `validation.ts` schema succeeds (its `print` union has a
`literal('')` branch) while the `part_001` schema fails (plain
`z.enum(...).optional()`). The input's `email` is absent, so by
`quoteSchemaP_email_irrelevant` the choice of email validator (here the
`validation.ts` regex) cannot affect the `part_001` result. -/
theorem schemas_differ_on_empty_print :
    (quoteSchemaV { baseInput with print := some "" }).isSome = true ∧
    quoteSchemaP emailMatch { baseInput with print := some "" } = none := by
  constructor
  · decide
  · decide

/-- C8 amended: the two schema copies are not equivalent (they disagree on
empty-string optional fields, and their `toPayload`s treat empty strings
differently), but they do agree on every input whose optional fields are all
absent: there, for any email validator, acceptance coincides and the payloads
produced through the respective `toPayload` functions are equal. -/
theorem schemas_agree_without_optionals (ze : String → Bool) (i : RawInput)
    (hp : i.print = none) (hco : i.company = none) (hct : i.contact_name = none)
    (hci : i.city = none) (hph : i.phone = none) (hem : i.email = none)
    (htg : i.tg_username = none) :
    (quoteSchemaV i).map toPayloadV = (quoteSchemaP ze i).map toPayloadP := by
  unfold quoteSchemaV quoteSchemaP
  rw [hp, hco, hct, hci, hph, hem, htg]
  simp only [parsePrintV, parseOptEnum, parseMaxLenOrEmpty, parseMaxLen,
    parseAnyStrOrEmpty, parseAnyStr, parseRegexOrEmpty, parseRegexOpt]
  cases parseReqEnum fefcoOptions i.fefco <;> simp
  cases parseIntField 20 1200 i.x_mm <;> simp
  cases parseIntField 20 1200 i.y_mm <;> simp
  cases parseIntField 20 1200 i.z_mm <;> simp
  cases parseReqEnum materialOptions i.material <;> simp
  cases parseIntField 1 100000 i.qty <;> simp
  cases parseReqEnum slaOptions i.sla_type <;> simp
  simp [toPayloadV, toPayloadP, emptyToNone]

/-- Witness for `schemas_agree_without_optionals`: the base input (all
optional fields absent) under the `validation.ts` email regex. -/
theorem schemas_agree_without_optionals_witness :
    (baseInput.print = none ∧ baseInput.company = none ∧
      baseInput.contact_name = none ∧ baseInput.city = none ∧
      baseInput.phone = none ∧ baseInput.email = none ∧
      baseInput.tg_username = none) ∧
    (quoteSchemaV baseInput).map toPayloadV
      = (quoteSchemaP emailMatch baseInput).map toPayloadP :=
  ⟨⟨rfl, rfl, rfl, rfl, rfl, rfl, rfl⟩,
    schemas_agree_without_optionals emailMatch baseInput rfl rfl rfl rfl rfl rfl rfl⟩

/-- C5: for every request and candidate set containing at least one eligible
(key-field-matching) candidate, strict-policy resolution returns a record
whose [qty_min, qty_max] band contains the requested quantity iff such an
eligible record exists, and fails NotFound (`none`) otherwise; resolution is
a pure function of its inputs, so it has no side effects by construction. -/
theorem strict_resolution_iff_band_match (req : QuoteRequest) (cands : List PriceRecord)
    (h : ∃ r ∈ cands, eligible req r = true) :
    ((∃ r ∈ cands, eligible req r = true ∧ bandContains r req.qty = true) ↔
      ∃ r, resolveStrict req cands = some r ∧ r ∈ cands ∧ eligible req r = true ∧
        bandContains r req.qty = true)
    ∧ ((¬ ∃ r ∈ cands, eligible req r = true ∧ bandContains r req.qty = true) →
      resolveStrict req cands = none) := by
  constructor
  · constructor
    · rintro ⟨r, hr, he, hb⟩
      have hmem : r ∈ cands.filter (eligible req) := List.mem_filter.mpr ⟨hr, he⟩
      have hsome :
          ((cands.filter (eligible req)).find? (fun s => bandContains s req.qty)).isSome := by
        rw [List.find?_isSome]
        exact ⟨r, hmem, hb⟩
      obtain ⟨r0, hr0⟩ := Option.isSome_iff_exists.mp hsome
      have hmem0 := List.mem_filter.mp (List.mem_of_find?_eq_some hr0)
      refine ⟨r0, hr0, hmem0.1, hmem0.2, ?_⟩
      simpa using List.find?_some hr0
    · rintro ⟨r, _, hr, he, hb⟩
      exact ⟨r, hr, he, hb⟩
  · intro hnone
    unfold resolveStrict
    apply List.find?_eq_none.mpr
    intro x hx hbx
    have hm := List.mem_filter.mp hx
    exact hnone ⟨x, hm.1, hm.2, hbx⟩

/-- Witness for `strict_resolution_iff_band_match`: a concrete catalog with
two eligible records, of which exactly the [501, 2000] band contains the
requested quantity 1000. -/
theorem strict_resolution_iff_band_match_witness :
    (∃ r ∈ [exBandLow, exBandHigh], eligible exReq r = true) ∧
    (((∃ r ∈ [exBandLow, exBandHigh], eligible exReq r = true ∧
        bandContains r exReq.qty = true) ↔
      ∃ r, resolveStrict exReq [exBandLow, exBandHigh] = some r ∧
        r ∈ [exBandLow, exBandHigh] ∧ eligible exReq r = true ∧
        bandContains r exReq.qty = true)
    ∧ ((¬ ∃ r ∈ [exBandLow, exBandHigh], eligible exReq r = true ∧
        bandContains r exReq.qty = true) →
      resolveStrict exReq [exBandLow, exBandHigh] = none)) :=
  ⟨by decide, strict_resolution_iff_band_match exReq [exBandLow, exBandHigh] (by decide)⟩

/-- C6: fallback-policy resolution fails NotFound (`none`) when no eligible
candidate exists; when eligible candidates exist it returns an eligible
candidate minimizing the absolute distance between the requested quantity and
the band midpoint (qty_min+qty_max)/2, ties broken by the smallest qty_min;
and on eligible bands [100, 500] and [501, 2000] with requested quantity 1000
it selects the [501, 2000] band. -/
theorem fallback_resolution_nearest_band (req : QuoteRequest) (cands : List PriceRecord) :
    ((¬ ∃ r ∈ cands, eligible req r = true) → resolveFallback req cands = none)
    ∧ ((∃ r ∈ cands, eligible req r = true) →
        ∃ r, resolveFallback req cands = some r ∧ r ∈ cands ∧ eligible req r = true ∧
          ∀ s ∈ cands, eligible req s = true →
            midDist req.qty r ≤ midDist req.qty s ∧
              (midDist req.qty r = midDist req.qty s → r.qty_min ≤ s.qty_min))
    ∧ resolveFallback exReq [exBandLow, exBandHigh] = some exBandHigh := by
  refine ⟨?_, ?_, by decide⟩
  · intro hne
    unfold resolveFallback
    have hnil : cands.filter (eligible req) = [] := by
      rw [List.filter_eq_nil_iff]
      intro a ha hpa
      exact hne ⟨a, ha, hpa⟩
    rw [hnil]
  · rintro ⟨r0, hr0, he0⟩
    unfold resolveFallback
    cases hf : cands.filter (eligible req) with
    | nil =>
      exfalso
      have hmem := List.mem_filter.mpr ⟨hr0, he0⟩
      rw [hf] at hmem
      exact absurd hmem (List.not_mem_nil _)
    | cons c cs =>
      obtain ⟨hmem, hle, _, hall⟩ := foldl_betterBand_spec req.qty cs c
      set r := cs.foldl (betterBand req.qty) c with hrdef
      have hrfilter : r ∈ cands.filter (eligible req) := by
        rw [hf]
        rcases hmem with hrc | hrt
        · rw [hrc]
          exact List.mem_cons_self _ _
        · exact List.mem_cons_of_mem _ hrt
      have hrc := List.mem_filter.mp hrfilter
      refine ⟨r, rfl, hrc.1, hrc.2, ?_⟩
      intro s hs hse
      have hsf : s ∈ cands.filter (eligible req) := List.mem_filter.mpr ⟨hs, hse⟩
      rw [hf] at hsf
      rcases List.mem_cons.mp hsf with hsc | hsmem
      · constructor
        · rw [midDist_le_iff, hsc]
          exact hle
        · intro hmd
          rw [hsc]
          rw [midDist_eq_iff, hsc] at hmd
          exact (foldl_betterBand_spec req.qty cs c).2.2.1 hmd
      · exact ⟨(midDist_le_iff _ _ _).mpr ((hall s hsmem).1),
          fun hmd => (hall s hsmem).2 ((midDist_eq_iff _ _ _).mp hmd)⟩

/-- Witness for `fallback_resolution_nearest_band`: the concrete two-band
catalog of the spec's example. -/
theorem fallback_resolution_nearest_band_witness :
    (∃ r ∈ [exBandLow, exBandHigh], eligible exReq r = true) ∧
    (∃ r, resolveFallback exReq [exBandLow, exBandHigh] = some r ∧
      r ∈ [exBandLow, exBandHigh] ∧ eligible exReq r = true ∧
      ∀ s ∈ [exBandLow, exBandHigh], eligible exReq s = true →
        midDist exReq.qty r ≤ midDist exReq.qty s ∧
          (midDist exReq.qty r = midDist exReq.qty s → r.qty_min ≤ s.qty_min)) :=
  ⟨by decide,
    (fallback_resolution_nearest_band exReq [exBandLow, exBandHigh]).2.1 (by decide)⟩

/-- C4: the submission handler ends in the success state and renders the
download link with exactly the response's pdf_url (and its lead_id) iff the
response body is `{ok: true, pdf_url, lead_id}`; a body `{ok: false, error}`
ends in the error state with that error string as the displayed message. -/
theorem submit_response_routing (res : ApiResp) (u l e : String) :
    (((submitFinal res).status = Status.success ∧
        renderedLink (submitFinal res) = some (u, l)) ↔ res = ApiResp.ok u l)
    ∧ ((submitFinal (ApiResp.err e)).status = Status.error ∧
        statusBarText (submitFinal (ApiResp.err e)).status
          (statusBarMessage (submitFinal (ApiResp.err e))) = e) := by
  constructor
  · constructor
    · rintro ⟨hs, hl⟩
      cases res with
      | ok u0 l0 =>
        simp only [submitFinal, renderedLink, Option.some.injEq, Prod.mk.injEq] at hl
        rw [hl.1, hl.2]
      | err e0 =>
        exact absurd hs (by simp [submitFinal])
    · rintro rfl
      exact ⟨rfl, rfl⟩
  · exact ⟨rfl, rfl⟩

/-- Witness for `submit_response_routing`: the success body of the
integration test and the NotFound error body. -/
theorem submit_response_routing_witness :
    ((submitFinal (ApiResp.ok "https://x/pdf/web-123.pdf" "web-123")).status
        = Status.success ∧
      renderedLink (submitFinal (ApiResp.ok "https://x/pdf/web-123.pdf" "web-123"))
        = some ("https://x/pdf/web-123.pdf", "web-123")) ∧
    ((submitFinal (ApiResp.err "Прайс не найден")).status = Status.error ∧
      statusBarText (submitFinal (ApiResp.err "Прайс не найден")).status
        (statusBarMessage (submitFinal (ApiResp.err "Прайс не найден")))
        = "Прайс не найден") :=
  ⟨(submit_response_routing (ApiResp.ok "https://x/pdf/web-123.pdf" "web-123")
      "https://x/pdf/web-123.pdf" "web-123" "e").1.mpr rfl,
   (submit_response_routing (ApiResp.ok "" "") "" "" "Прайс не найден").2⟩

/-- C10: for every response whose content-type header does not contain
"application/json", `postQuote` returns `{ok: false, error: "Unexpected
response: " + (text || statusText)}` — it neither attempts JSON parsing nor
raises (the `res.text()` rejection is caught to the empty string). -/
theorem postquote_nonjson_yields_error (r : HttpResp)
    (h : strIncludes (r.contentTypeHeader.getD "") "application/json" = false) :
    postQuoteHandle r = some (ApiResp.err ("Unexpected response: " ++
      (if r.bodyText.getD "" = "" then r.statusText else r.bodyText.getD ""))) := by
  simp [postQuoteHandle, h]

/-- A concrete non-JSON upstream response carrying an HTML error page. -/
def htmlResp : HttpResp :=
  ⟨some "text/html", some "ZeroDivisionError: division by zero",
    "Internal Server Error", none⟩

/-- Witness for `postquote_nonjson_yields_error`: a text/html error page. -/
theorem postquote_nonjson_yields_error_witness :
    strIncludes (htmlResp.contentTypeHeader.getD "") "application/json" = false ∧
    postQuoteHandle htmlResp = some (ApiResp.err ("Unexpected response: " ++
      (if htmlResp.bodyText.getD "" = "" then htmlResp.statusText
        else htmlResp.bodyText.getD ""))) :=
  ⟨by decide, postquote_nonjson_yields_error htmlResp (by decide)⟩

/-- C2 counterexample: for the concrete non-JSON response `htmlResp`, the
message displayed by the status bar after submission is "Unexpected
response: " followed by the raw response body — the body text (here raw
upstream exception text) reaches the user-facing message verbatim. -/
theorem statusbar_shows_raw_body :
    statusBarText (submitFinal (onSubmitResult htmlResp "")).status
        (statusBarMessage (submitFinal (onSubmitResult htmlResp "")))
      = "Unexpected response: ZeroDivisionError: division by zero" ∧
    strIncludes
      (statusBarText (submitFinal (onSubmitResult htmlResp "")).status
        (statusBarMessage (submitFinal (onSubmitResult htmlResp ""))))
      "ZeroDivisionError: division by zero" = true := by
  constructor
  · decide
  · decide

/-- C2 amended: the status bar displays the result's error string verbatim:
the server's `error` field for a JSON failure body, and for a non-JSON
response "Unexpected response: " followed by the raw response text (or the
statusText when the text is empty) — so raw upstream body text can appear in
the user-facing message; loading and success use fixed strings. -/
theorem statusbar_error_message (e : String) (r : HttpResp)
    (h : strIncludes (r.contentTypeHeader.getD "") "application/json" = false) :
    statusBarText (submitFinal (ApiResp.err e)).status
        (statusBarMessage (submitFinal (ApiResp.err e))) = e
    ∧ statusBarText (submitFinal (onSubmitResult r "")).status
        (statusBarMessage (submitFinal (onSubmitResult r ""))) =
      "Unexpected response: " ++
        (if r.bodyText.getD "" = "" then r.statusText else r.bodyText.getD "") := by
  refine ⟨rfl, ?_⟩
  unfold onSubmitResult
  rw [postquote_nonjson_yields_error r h]
  rfl

/-- Witness for `statusbar_error_message`: the server error string of the
integration test, and the concrete html response. -/
theorem statusbar_error_message_witness :
    strIncludes (htmlResp.contentTypeHeader.getD "") "application/json" = false ∧
    (statusBarText (submitFinal (ApiResp.err "Неверные данные")).status
        (statusBarMessage (submitFinal (ApiResp.err "Неверные данные")))
      = "Неверные данные"
    ∧ statusBarText (submitFinal (onSubmitResult htmlResp "")).status
        (statusBarMessage (submitFinal (onSubmitResult htmlResp ""))) =
      "Unexpected response: " ++
        (if htmlResp.bodyText.getD "" = "" then htmlResp.statusText
          else htmlResp.bodyText.getD "")) :=
  ⟨by decide, statusbar_error_message "Неверные данные" htmlResp (by decide)⟩

/-- A submitted payload carrying PII contact fields (the README's example
request). -/
def piiPayload : QuoteFormPayload := { basePayload with
  company := some "ООО Ромашка"
  contact_name := some "Иван"
  city := some "Уфа"
  phone := some "+7 999 000-00-00"
  email := some "test@example.com"
  tg_username := some "@client" }

set_option maxRecDepth 4000 in
/-- C1: evidence against the claim — `postQuote` logs
`console.log('postQuote called', payload)` and the submit handler logs
`console.log('onSubmit values', values)`, so the emitted log lines contain
the raw (unmasked) phone and email of the submitted payload verbatim. -/
theorem logs_contain_unmasked_pii :
    postQuoteLogs piiPayload = [⟨"postQuote called", piiPayload⟩] ∧
    strIncludes (logLine ⟨"postQuote called", piiPayload⟩)
      "+7 999 000-00-00" = true ∧
    strIncludes (logLine ⟨"postQuote called", piiPayload⟩)
      "test@example.com" = true ∧
    onSubmitLogs piiPayload = [⟨"onSubmit values", piiPayload⟩] ∧
    strIncludes (logLine ⟨"onSubmit values", piiPayload⟩)
      "+7 999 000-00-00" = true := by
  refine ⟨rfl, by decide, by decide, rfl, by decide⟩

end CPQ
